import Mathlib

/-!
Verification development for the AppSegura repository.

Shallow embedding of the code the specification claims are about:

* `backend/src/crypto.py` — key lifecycle (`read_secret_key`) and the
  `encrypt_data` / `decrypt_data` wrappers around the third-party Fernet
  primitive;
* `backend/src/app.py` — login-attempt rate limiter and the credential
  branch of the `/login` handler;
* `backend/src/database.py` — `save_user_data` upsert;
* `backend/src/validation.py` — `sanitize_input`, `validate_username`.

Python byte strings are modelled as `List Nat`, Python text strings as
Lean `String`, fallible operations as `Option` / `Except`, and the key
file on disk as an explicit state record threaded through
`read_secret_key`.
-/

namespace AppSegura

/-- Byte strings (Python `bytes`) modelled as lists of naturals. -/
abbrev Bytes := List Nat

/-! ### Fernet model

The repository calls the third-party `cryptography.fernet` library, which
is not part of this repository's sources. -/

/-- Modelled from the spec: Fernet (third-party library, not in the
repository sources) is "authenticated symmetric encryption ... producing
self-contained, tamper-evident ciphertext". A token is modelled as a
length header, the payload, and an authentication tag binding the key to
the payload. -/
def fernetEncrypt (key msg : Bytes) : Bytes :=
  msg.length :: (msg ++ (key ++ msg))

/-- Modelled from the spec: Fernet decryption parses the token, recomputes
the authentication tag from the key and the parsed payload, and fails
(`none`) unless the tag matches exactly. -/
def fernetDecrypt (key tok : Bytes) : Option Bytes :=
  match tok with
  | [] => none
  | n :: rest =>
    if rest.length = n + key.length + n then
      let msg := rest.take n
      if rest.drop n = key ++ msg then some msg else none
    else none

/-- Modelled from the spec: the `str.encode` step of `encrypt_data` maps a
text to the sequence of its code points (an injective encoding; the UTF-8
byte-level detail is abstracted). -/
def strEncode (s : String) : Bytes := s.data.map Char.toNat

/-- Modelled from the spec: the `bytes.decode` step of `decrypt_data`;
fails on sequences that are not an encoded text. -/
def strDecode (b : Bytes) : Option String :=
  if b.all (fun n => decide n.isValidChar) then
    some (String.mk (b.map Char.ofNat))
  else none

/-- Embedding of `encrypt_data` (crypto.py lines 105-118): encode the text,
then Fernet-encrypt it under the key. -/
def encrypt_data (plain_data : String) (key : Bytes) : Bytes :=
  fernetEncrypt key (strEncode plain_data)

/-- Embedding of `decrypt_data` (crypto.py lines 121-134): Fernet-decrypt,
then decode; every failure raises in the source, modelled as `none`. -/
def decrypt_data (encrypted_data : Bytes) (key : Bytes) : Option String :=
  (fernetDecrypt key encrypted_data).bind strDecode

theorem fernetDecrypt_fernetEncrypt (key msg : Bytes) :
    fernetDecrypt key (fernetEncrypt key msg) = some msg := by
  have hlen : (msg ++ (key ++ msg)).length = msg.length + key.length + msg.length := by
    simp [List.length_append]
    omega
  simp only [fernetEncrypt, fernetDecrypt]
  rw [if_pos hlen, List.take_left' rfl, List.drop_left' rfl, if_pos rfl]

theorem strDecode_strEncode (s : String) : strDecode (strEncode s) = some s := by
  have hall : (strEncode s).all (fun n => decide n.isValidChar) = true := by
    simp only [strEncode, List.all_eq_true, List.mem_map]
    rintro n ⟨c, _, rfl⟩
    exact decide_eq_true c.valid
  unfold strDecode
  rw [if_pos hall, strEncode, List.map_map]
  have hmap : s.data.map (Char.ofNat ∘ Char.toNat) = s.data := by
    simp [Function.comp_def]
  rw [hmap]

/-- C4: for every text `x` (in particular every printable text of length at
most 10KB) and every key `k`, `decrypt_data (encrypt_data x k) k = x`:
encryption followed by decryption under the same key is the identity. -/
theorem encrypt_then_decrypt_id (s : String) (k : Bytes) :
    decrypt_data (encrypt_data s k) k = some s := by
  simp [decrypt_data, encrypt_data, fernetDecrypt_fernetEncrypt,
    strDecode_strEncode]

theorem fernetDecrypt_set_ne (key msg : Bytes) (i b : Nat)
    (hi : i < (fernetEncrypt key msg).length)
    (hb : (fernetEncrypt key msg)[i] ≠ b) :
    fernetDecrypt key ((fernetEncrypt key msg).set i b) = none := by
  have hrest : (msg ++ (key ++ msg)).length
      = msg.length + key.length + msg.length := by
    simp [List.length_append]
    omega
  cases i with
  | zero =>
    have hb0 : msg.length ≠ b := by
      simpa [fernetEncrypt] using hb
    simp only [fernetEncrypt, List.set_cons_zero, fernetDecrypt]
    rw [if_neg (by rw [hrest]; omega)]
  | succ j =>
    have hj : j < (msg ++ (key ++ msg)).length := by
      have := hi
      simp only [fernetEncrypt, List.length_cons] at this
      omega
    have hbj : (msg ++ (key ++ msg))[j] ≠ b := by
      simpa [fernetEncrypt] using hb
    simp only [fernetEncrypt, List.set_cons_succ, fernetDecrypt]
    rw [if_pos (by simp [hrest])]
    rw [if_neg]
    intro heq
    by_cases hjn : j < msg.length
    · have htake : ((msg ++ (key ++ msg)).set j b).take msg.length
          = msg.set j b := by
        rw [List.set_take, List.take_left' rfl]
      have hdrop : ((msg ++ (key ++ msg)).set j b).drop msg.length
          = key ++ msg := by
        rw [List.drop_set_of_lt b _ hjn, List.drop_left' rfl]
      rw [htake, hdrop] at heq
      have hmm : msg = msg.set j b := List.append_cancel_left heq
      have e0 : msg[j]? = some b := by
        rw [hmm]
        exact List.getElem?_set_self hjn
      have e1 : (msg ++ (key ++ msg))[j]? = some b := by
        rw [List.getElem?_append_left hjn]
        exact e0
      have e2 := List.getElem?_eq_getElem hj
      exact hbj (Option.some.inj (e2.symm.trans e1))
    · push_neg at hjn
      have htake : ((msg ++ (key ++ msg)).set j b).take msg.length = msg := by
        rw [List.set_take, List.take_left' rfl, List.set_eq_of_length_le hjn]
      have hdrop : ((msg ++ (key ++ msg)).set j b).drop msg.length
          = (key ++ msg).set (j - msg.length) b := by
        rw [List.drop_set, if_neg (by omega), List.drop_left' rfl]
      rw [htake, hdrop] at heq
      have hlt : j - msg.length < (key ++ msg).length := by
        simp only [List.length_append]
        rw [hrest] at hj
        omega
      have e1 : (msg ++ (key ++ msg))[j]? = some b := by
        rw [List.getElem?_append_right hjn, ← heq]
        exact List.getElem?_set_self hlt
      have e2 := List.getElem?_eq_getElem hj
      exact hbj (Option.some.inj (e2.symm.trans e1))

theorem fernetDecrypt_wrong_key (key key2 msg : Bytes)
    (hlen : key2.length = key.length) (hne : key2 ≠ key) :
    fernetDecrypt key2 (fernetEncrypt key msg) = none := by
  simp only [fernetEncrypt, fernetDecrypt]
  rw [if_pos (by simp [List.length_append]; omega)]
  rw [List.take_left' rfl, List.drop_left' rfl]
  rw [if_neg]
  intro heq
  exact hne (List.append_cancel_right heq.symm)

theorem fernetDecrypt_truncate (key msg : Bytes) (j : Nat)
    (hj : j < (fernetEncrypt key msg).length) :
    fernetDecrypt key ((fernetEncrypt key msg).take j) = none := by
  have hrest : (msg ++ (key ++ msg)).length
      = msg.length + key.length + msg.length := by
    simp [List.length_append]
    omega
  cases j with
  | zero => rfl
  | succ i =>
    have hi : i < (msg ++ (key ++ msg)).length := by
      have := hj
      simp only [fernetEncrypt, List.length_cons] at this
      omega
    simp only [fernetEncrypt, List.take_succ_cons, fernetDecrypt]
    rw [if_neg (by rw [List.length_take]; omega)]

/-- C5: flipping any byte of a ciphertext produced by encrypt_data makes
decrypt_data fail (raise, modelled as none) rather than return any
plaintext; decrypt_data likewise fails on a truncated ciphertext and under
a different key of the same size, and the Option result carries no partial
data on failure. -/
theorem decrypt_data_tamper_fails (s : String) (k k2 : Bytes) (i b j : Nat)
    (hi : i < (encrypt_data s k).length)
    (hb : (encrypt_data s k)[i] ≠ b)
    (hk2 : k2.length = k.length) (hne : k2 ≠ k)
    (hj : j < (encrypt_data s k).length) :
    decrypt_data ((encrypt_data s k).set i b) k = none ∧
    decrypt_data (encrypt_data s k) k2 = none ∧
    decrypt_data ((encrypt_data s k).take j) k = none := by
  unfold encrypt_data at hi hb hj ⊢
  refine ⟨?_, ?_, ?_⟩
  · unfold decrypt_data
    rw [fernetDecrypt_set_ne k (strEncode s) i b hi hb]
    rfl
  · unfold decrypt_data
    rw [fernetDecrypt_wrong_key k k2 (strEncode s) hk2 hne]
    rfl
  · unfold decrypt_data
    rw [fernetDecrypt_truncate k (strEncode s) j hj]
    rfl

/-- Witness for C5 at a concrete ciphertext: the two-character text "ab"
encrypted under the all-zero key, its byte 0 flipped, decrypted under a
different 32-byte key, and truncated to one byte. -/
theorem decrypt_data_tamper_fails_witness :
    decrypt_data ((encrypt_data (String.mk ['a', 'b']) (List.replicate 32 0)).set 0 9)
      (List.replicate 32 0) = none ∧
    decrypt_data (encrypt_data (String.mk ['a', 'b']) (List.replicate 32 0))
      (List.replicate 32 1) = none ∧
    decrypt_data ((encrypt_data (String.mk ['a', 'b']) (List.replicate 32 0)).take 1)
      (List.replicate 32 0) = none :=
  decrypt_data_tamper_fails (String.mk ['a', 'b']) (List.replicate 32 0)
    (List.replicate 32 1) 0 9 1 (by decide) (by decide) (by decide)
    (by decide) (by decide)

/-! ### Key lifecycle (read_secret_key, crypto.py lines 6-102) -/

/-- State of the key file at a fixed path: `content` is the file's bytes
(`none` when no file exists) and `mode` its permission bits. -/
structure KeyFileState where
  content : Option Bytes
  mode : Nat
  deriving DecidableEq

/-- A byte string passes the self-test of read_secret_key (crypto.py lines
35-44: construct a Fernet object from the content, then encrypt and
decrypt a sentinel): exactly the byte strings that are a well-formed
32-byte Fernet key. -/
def validFernetKey (k : Bytes) : Bool := k.length == 32

/-- One attempt of the acquire-or-create sequence of read_secret_key
(crypto.py lines 21-93). `ioFail` injects a transient I/O failure
(OSError) into this attempt. `freshKey` is the key Fernet.generate_key()
yields on this attempt. An existing file whose content is non-empty and
passes the self-test is trusted and returned with the state untouched
(lines 28-46); otherwise the file is removed and recreated with fresh
content and owner-only permissions 0o600 (lines 53-85). -/
def read_secret_key_attempt (st : KeyFileState) (freshKey : Bytes)
    (ioFail : Bool) : Except Unit (Bytes × KeyFileState) :=
  if ioFail then Except.error () else
  match st.content with
  | some data =>
    if data.length != 0 && validFernetKey data then
      Except.ok (data, st)
    else
      Except.ok (freshKey, { content := some freshKey, mode := 0o600 })
  | none => Except.ok (freshKey, { content := some freshKey, mode := 0o600 })

/-- The retry loop of read_secret_key (crypto.py lines 20, 87-99): the
attempt counter and the number of attempts left; a failing attempt other
than the last one retries, a failure on the last attempt raises. -/
def read_secret_key_go (st : KeyFileState) (fresh : Nat → Bytes)
    (faults : Nat → Bool) : Nat → Nat → Except Unit (Bytes × KeyFileState)
  | _, 0 => Except.error ()
  | attempt, remaining + 1 =>
    match read_secret_key_attempt st (fresh attempt) (faults attempt) with
    | Except.ok r => Except.ok r
    | Except.error _ =>
      if remaining == 0 then Except.error ()
      else read_secret_key_go st fresh faults (attempt + 1) remaining

/-- Embedding of read_secret_key (crypto.py lines 6-102) as a function of
the key-file state, the keys generate_key yields per attempt, and the
fault schedule; max_attempts = 3 (line 18). -/
def read_secret_key (st : KeyFileState) (fresh : Nat → Bytes)
    (faults : Nat → Bool) : Except Unit (Bytes × KeyFileState) :=
  read_secret_key_go st fresh faults 0 3

theorem read_secret_key_attempt_ok (st : KeyFileState) (k : Bytes) :
    (read_secret_key_attempt st k false = Except.ok (k, ⟨some k, 0o600⟩)) ∨
    (∃ d, st.content = some d ∧ read_secret_key_attempt st k false = Except.ok (d, st)) := by
  unfold read_secret_key_attempt
  cases hc : st.content with
  | none => exact Or.inl (by simp)
  | some d =>
    by_cases hv : (d.length != 0 && validFernetKey d) = true
    · exact Or.inr ⟨d, rfl, by simp [hv]⟩
    · exact Or.inl (by simp [hv])

theorem read_secret_key_attempt_fault (st : KeyFileState) (k : Bytes) :
    read_secret_key_attempt st k true = Except.error () := rfl

/-- C3: the acquire-or-create sequence is retried up to exactly 3 attempts;
an error is surfaced if and only if the attempts 0, 1 and 2 all hit a
transient I/O fault — if any of the 3 attempts succeeds, no error is
raised to the caller. -/
theorem read_secret_key_retries (st : KeyFileState) (fresh : Nat → Bytes)
    (faults : Nat → Bool) :
    read_secret_key st fresh faults = Except.error () ↔
      (faults 0 = true ∧ faults 1 = true ∧ faults 2 = true) := by
  have step : ∀ (a r : Nat), faults a = false →
      read_secret_key_go st fresh faults a (r + 1) ≠ Except.error () := by
    intro a r hf
    unfold read_secret_key_go
    rcases read_secret_key_attempt_ok st (fresh a) with h | ⟨d, _, h⟩ <;>
      rw [hf, h] <;> simp
  constructor
  · intro herr
    by_cases h0 : faults 0 = true
    · by_cases h1 : faults 1 = true
      · by_cases h2 : faults 2 = true
        · exact ⟨h0, h1, h2⟩
        · exfalso
          rw [Bool.not_eq_true] at h2
          unfold read_secret_key read_secret_key_go at herr
          rw [h0, read_secret_key_attempt_fault] at herr
          simp only [Nat.reduceBEq, Bool.false_eq_true, if_false] at herr
          unfold read_secret_key_go at herr
          rw [h1, read_secret_key_attempt_fault] at herr
          simp only [Nat.reduceBEq, Bool.false_eq_true, if_false] at herr
          exact step 2 0 h2 herr
      · rw [Bool.not_eq_true] at h1
        exfalso
        unfold read_secret_key read_secret_key_go at herr
        rw [h0, read_secret_key_attempt_fault] at herr
        simp only [Nat.reduceBEq, Bool.false_eq_true, if_false] at herr
        exact step 1 1 h1 herr
    · rw [Bool.not_eq_true] at h0
      exact absurd herr (step 0 2 h0)
  · rintro ⟨h0, h1, h2⟩
    unfold read_secret_key read_secret_key_go
    rw [h0, read_secret_key_attempt_fault]
    simp only [Nat.reduceBEq, Bool.false_eq_true, if_false]
    unfold read_secret_key_go
    rw [h1, read_secret_key_attempt_fault]
    simp only [Nat.reduceBEq, Bool.false_eq_true, if_false]
    unfold read_secret_key_go
    rw [h2, read_secret_key_attempt_fault]
    simp

/-- C2: an existing key file that fails the self-test (zero-length or
non-key content) is deleted and regenerated as in the creation path: the
call returns the freshly generated valid key and leaves it as the new,
non-empty file content with owner-only permissions. -/
theorem read_secret_key_self_heal (d : Bytes) (m : Nat) (fresh : Nat → Bytes)
    (hbad : d.length = 0 ∨ validFernetKey d = false)
    (hfresh : validFernetKey (fresh 0) = true) :
    read_secret_key ⟨some d, m⟩ fresh (fun _ => false) =
      Except.ok (fresh 0, ⟨some (fresh 0), 0o600⟩) ∧
    (fresh 0).length ≠ 0 := by
  have hcond : (d.length != 0 && validFernetKey d) = false := by
    rcases hbad with h | h <;> simp [h]
  have hlen : (fresh 0).length = 32 := by
    simpa [validFernetKey] using hfresh
  refine ⟨?_, by omega⟩
  unfold read_secret_key read_secret_key_go read_secret_key_attempt
  simp [hcond]

/-- Witness for C2: a zero-length key file heals into a freshly generated
32-byte key and a non-empty file. -/
theorem read_secret_key_self_heal_witness :
    (read_secret_key ⟨some [], 0o600⟩ (fun _ => List.replicate 32 7)
        (fun _ => false) =
      Except.ok (List.replicate 32 7, ⟨some (List.replicate 32 7), 0o600⟩)) ∧
    (List.replicate 32 7 : Bytes).length ≠ 0 :=
  read_secret_key_self_heal [] 0o600 (fun _ => List.replicate 32 7)
    (Or.inl (by decide)) (by decide)

/-- C7: the first call against an empty path creates and persists a key;
the second call against the resulting state returns the same key material
and leaves the state untouched (no regeneration, no rewrite). -/
theorem read_secret_key_persists (m : Nat) (fresh1 fresh2 : Nat → Bytes)
    (hv : validFernetKey (fresh1 0) = true) :
    read_secret_key ⟨none, m⟩ fresh1 (fun _ => false) =
      Except.ok (fresh1 0, ⟨some (fresh1 0), 0o600⟩) ∧
    read_secret_key ⟨some (fresh1 0), 0o600⟩ fresh2 (fun _ => false) =
      Except.ok (fresh1 0, ⟨some (fresh1 0), 0o600⟩) := by
  have hlen : (fresh1 0).length = 32 := by
    simpa [validFernetKey] using hv
  have hcond : ((fresh1 0).length != 0 && validFernetKey (fresh1 0)) = true := by
    simp [validFernetKey, hlen]
  constructor
  · unfold read_secret_key read_secret_key_go read_secret_key_attempt
    simp
  · unfold read_secret_key read_secret_key_go read_secret_key_attempt
    simp [hcond]

/-- Witness for C7: creating a key at an empty path and calling again with
a different generator returns the first key and the unchanged state. -/
theorem read_secret_key_persists_witness :
    read_secret_key ⟨none, 0⟩ (fun _ => List.replicate 32 3) (fun _ => false) =
      Except.ok (List.replicate 32 3, ⟨some (List.replicate 32 3), 0o600⟩) ∧
    read_secret_key ⟨some (List.replicate 32 3), 0o600⟩
        (fun _ => List.replicate 32 4) (fun _ => false) =
      Except.ok (List.replicate 32 3, ⟨some (List.replicate 32 3), 0o600⟩) :=
  read_secret_key_persists 0 (fun _ => List.replicate 32 3)
    (fun _ => List.replicate 32 4) (by decide)

/-- Counterexample to C1: the key file has mode 0o644 (group- and
world-readable, 0o644 land 0o044 is non-zero) and holds a valid key, yet
read_secret_key trusts it and returns the key instead of raising. -/
theorem read_secret_key_trusts_insecure_file :
    ((0o644 : Nat) &&& 0o044 ≠ 0) ∧
    read_secret_key ⟨some (List.replicate 32 0), 0o644⟩
        (fun _ => List.replicate 32 1) (fun _ => false) =
      Except.ok (List.replicate 32 0, ⟨some (List.replicate 32 0), 0o644⟩) :=
  ⟨by decide, by rfl⟩

/-- C1 amended: read_secret_key performs no permission check on an existing
key file — a file whose content passes the self-test is trusted and its key
returned whatever the file's mode — and restrictive permissions 0o600 are
set only when a new key file is created. -/
theorem read_secret_key_no_permission_check (k : Bytes) (m m2 : Nat)
    (fresh : Nat → Bytes) (hv : validFernetKey k = true) :
    read_secret_key ⟨some k, m⟩ fresh (fun _ => false) =
      Except.ok (k, ⟨some k, m⟩) ∧
    read_secret_key ⟨none, m2⟩ fresh (fun _ => false) =
      Except.ok (fresh 0, ⟨some (fresh 0), 0o600⟩) := by
  have hlen : k.length = 32 := by
    simpa [validFernetKey] using hv
  have hcond : (k.length != 0 && validFernetKey k) = true := by
    simp [validFernetKey, hlen]
  constructor
  · unfold read_secret_key read_secret_key_go read_secret_key_attempt
    simp [hcond]
  · unfold read_secret_key read_secret_key_go read_secret_key_attempt
    simp

/-- Witness for the amended C1: a world-readable valid key file (mode
0o777) is trusted unchanged; creation at an empty path sets mode 0o600. -/
theorem read_secret_key_no_permission_check_witness :
    read_secret_key ⟨some (List.replicate 32 5), 0o777⟩
        (fun _ => List.replicate 32 6) (fun _ => false) =
      Except.ok (List.replicate 32 5, ⟨some (List.replicate 32 5), 0o777⟩) ∧
    read_secret_key ⟨none, 1⟩ (fun _ => List.replicate 32 6) (fun _ => false) =
      Except.ok (List.replicate 32 6, ⟨some (List.replicate 32 6), 0o600⟩) :=
  read_secret_key_no_permission_check (List.replicate 32 5) 0o777 1
    (fun _ => List.replicate 32 6) (by decide)

/-! ### Login-attempt rate limiter (app.py lines 61, 97-137; config.py
lines 27-28) -/

/-- The login_attempts dictionary (app.py line 61): client identifier to
recorded attempt timestamps; `none` models a missing dictionary key. -/
abbrev AttemptMap := String → Option (List Int)

/-- Default MAX_LOGIN_ATTEMPTS (config.py line 27). -/
def MAX_LOGIN_ATTEMPTS : Nat := 5

/-- Default LOGIN_ATTEMPT_WINDOW in seconds (config.py line 28). -/
def LOGIN_ATTEMPT_WINDOW : Int := 900

/-- The pruning step of is_rate_limited (app.py lines 114-118): keep the
attempts strictly younger than the window. -/
def prune_attempts (window now : Int) (l : List Int) : List Int :=
  l.filter (fun t => decide (now - t < window))

/-- Embedding of is_rate_limited (app.py lines 97-121): default a missing
entry to the empty list, prune it, store the pruned list back into the
dictionary, and compare the remaining count to the maximum. Returns the
verdict and the updated dictionary. -/
def is_rate_limited (window : Int) (maxAttempts : Nat) (now : Int)
    (m : AttemptMap) (ip : String) : Bool × AttemptMap :=
  let pruned := prune_attempts window now ((m ip).getD [])
  (decide (maxAttempts ≤ pruned.length),
   fun x => if x = ip then some pruned else m x)

/-- Embedding of record_login_attempt (app.py lines 124-131): append the
current time to the identifier's entry. -/
def record_login_attempt (now : Int) (m : AttemptMap) (ip : String) :
    AttemptMap :=
  fun x => if x = ip then some ((m ip).getD [] ++ [now]) else m x

/-- Embedding of clear_login_attempts (app.py lines 134-137): del removes
the dictionary entry. -/
def clear_login_attempts (m : AttemptMap) (ip : String) : AttemptMap :=
  fun x => if x = ip then none else m x

/-- Five recorded attempts at the given times for the identifier, starting
from a cleared entry: the scenario of the spec's rate-limiting property. -/
def fiveAttempts (m : AttemptMap) (ip : String) (t1 t2 t3 t4 t5 : Int) :
    AttemptMap :=
  record_login_attempt t5 (record_login_attempt t4 (record_login_attempt t3
    (record_login_attempt t2 (record_login_attempt t1
      (clear_login_attempts m ip) ip) ip) ip) ip) ip

/-- C6: is_rate_limited prunes the entry to the attempts younger than the
window, stores the pruned list, and is true exactly when the remaining
count reaches the maximum; five recorded attempts within the window make
it true, a clock past the window makes it false again, and immediately
after clear it is false. -/
theorem is_rate_limited_spec (W : Int) (M : Nat) (now now2 t1 t2 t3 t4 t5 : Int)
    (m : AttemptMap) (ip : String)
    (h1 : now - t1 < W) (h2 : now - t2 < W) (h3 : now - t3 < W)
    (h4 : now - t4 < W) (h5 : now - t5 < W)
    (g1 : W ≤ now2 - t1) (g2 : W ≤ now2 - t2) (g3 : W ≤ now2 - t3)
    (g4 : W ≤ now2 - t4) (g5 : W ≤ now2 - t5)
    (hM : 0 < M) :
    ((is_rate_limited W M now m ip).1 = true ↔
        M ≤ (prune_attempts W now ((m ip).getD [])).length) ∧
    ((is_rate_limited W M now m ip).2 ip
        = some (prune_attempts W now ((m ip).getD []))) ∧
    (is_rate_limited W 5 now (fiveAttempts m ip t1 t2 t3 t4 t5) ip).1 = true ∧
    (is_rate_limited W 5 now2 (fiveAttempts m ip t1 t2 t3 t4 t5) ip).1 = false ∧
    (is_rate_limited W M now (clear_login_attempts m ip) ip).1 = false := by
  have hentry : fiveAttempts m ip t1 t2 t3 t4 t5 ip
      = some [t1, t2, t3, t4, t5] := by
    simp [fiveAttempts, record_login_attempt, clear_login_attempts]
  refine ⟨?_, ?_, ?_, ?_, ?_⟩
  · simp [is_rate_limited]
  · simp [is_rate_limited]
  · rw [is_rate_limited, hentry]
    simp [prune_attempts, List.filter, h1, h2, h3, h4, h5]
  · have n1 : ¬ (now2 - t1 < W) := by omega
    have n2 : ¬ (now2 - t2 < W) := by omega
    have n3 : ¬ (now2 - t3 < W) := by omega
    have n4 : ¬ (now2 - t4 < W) := by omega
    have n5 : ¬ (now2 - t5 < W) := by omega
    rw [is_rate_limited, hentry]
    simp [prune_attempts, List.filter, n1, n2, n3, n4, n5]
  · have hno : ¬ (M ≤ 0) := by omega
    simp [is_rate_limited, clear_login_attempts, prune_attempts, hno]

/-- Witness for C6 at the configured defaults (window 900 seconds, maximum
5 attempts): attempts at time 500 checked at time 1000 (inside the window)
and at time 2000 (outside it). -/
theorem is_rate_limited_spec_witness :
    ((is_rate_limited LOGIN_ATTEMPT_WINDOW MAX_LOGIN_ATTEMPTS 1000
        (fun _ => none) (String.mk ['i', 'p'])).1 = true ↔
      MAX_LOGIN_ATTEMPTS ≤ (prune_attempts LOGIN_ATTEMPT_WINDOW 1000
        (((fun _ => none : AttemptMap) (String.mk ['i', 'p'])).getD [])).length) ∧
    ((is_rate_limited LOGIN_ATTEMPT_WINDOW MAX_LOGIN_ATTEMPTS 1000
        (fun _ => none) (String.mk ['i', 'p'])).2 (String.mk ['i', 'p'])
      = some (prune_attempts LOGIN_ATTEMPT_WINDOW 1000
        (((fun _ => none : AttemptMap) (String.mk ['i', 'p'])).getD []))) ∧
    (is_rate_limited LOGIN_ATTEMPT_WINDOW 5 1000
      (fiveAttempts (fun _ => none) (String.mk ['i', 'p']) 500 500 500 500 500)
      (String.mk ['i', 'p'])).1 = true ∧
    (is_rate_limited LOGIN_ATTEMPT_WINDOW 5 2000
      (fiveAttempts (fun _ => none) (String.mk ['i', 'p']) 500 500 500 500 500)
      (String.mk ['i', 'p'])).1 = false ∧
    (is_rate_limited LOGIN_ATTEMPT_WINDOW MAX_LOGIN_ATTEMPTS 1000
      (clear_login_attempts (fun _ => none) (String.mk ['i', 'p']))
      (String.mk ['i', 'p'])).1 = false :=
  is_rate_limited_spec LOGIN_ATTEMPT_WINDOW MAX_LOGIN_ATTEMPTS 1000 2000
    500 500 500 500 500 (fun _ => none) (String.mk ['i', 'p'])
    (by decide) (by decide) (by decide) (by decide) (by decide)
    (by decide) (by decide) (by decide) (by decide) (by decide) (by decide)

/-! ### Data table upsert (database.py lines 194-240) -/

/-- Row of the data table (database.py lines 56-65); id and timestamp
columns are omitted. -/
structure DataRow where
  username : String
  data : Bytes
  deriving DecidableEq

/-- Embedding of save_user_data (database.py lines 194-240): if a row for
the username exists (SELECT id FROM data WHERE username = ?), the SQL
UPDATE sets data on every row of that username; otherwise INSERT appends
one new row. -/
def save_user_data (username : String) (encrypted_data : Bytes)
    (tbl : List DataRow) : List DataRow :=
  if tbl.any (fun r => r.username == username) then
    tbl.map (fun r =>
      if r.username == username then ⟨r.username, encrypted_data⟩ else r)
  else
    tbl ++ [⟨username, encrypted_data⟩]

theorem save_user_data_one_row (u : String) (v : Bytes) (tbl : List DataRow)
    (h : (tbl.filter (fun r => r.username == u)).length ≤ 1) :
    (save_user_data u v tbl).filter (fun r => r.username == u) = [⟨u, v⟩] := by
  unfold save_user_data
  by_cases hex : tbl.any (fun r => r.username == u) = true
  · rw [if_pos hex]
    rw [List.filter_map]
    have hcong : tbl.filter ((fun r => r.username == u) ∘ (fun r =>
        if r.username == u then (⟨r.username, v⟩ : DataRow) else r))
        = tbl.filter (fun r => r.username == u) := by
      apply List.filter_congr
      intro r _
      simp only [Function.comp_apply]
      by_cases hr : r.username == u
      · simp [hr]
      · simp [hr]
    rw [hcong]
    rcases List.any_eq_true.mp hex with ⟨r0, hr0mem, hr0⟩
    have hpos : 0 < (tbl.filter (fun r => r.username == u)).length := by
      have : r0 ∈ tbl.filter (fun r => r.username == u) :=
        List.mem_filter.mpr ⟨hr0mem, hr0⟩
      exact List.length_pos.mpr (List.ne_nil_of_mem this)
    have hone : (tbl.filter (fun r => r.username == u)).length = 1 := by
      omega
    rcases List.length_eq_one.mp hone with ⟨r1, hr1⟩
    have hr1u : r1.username == u := by
      have : r1 ∈ tbl.filter (fun r => r.username == u) := by
        rw [hr1]
        exact List.mem_singleton_self r1
      exact (List.mem_filter.mp this).2
    rw [hr1]
    simp only [List.map_cons, List.map_nil, if_pos hr1u]
    have : r1.username = u := by
      simpa using hr1u
    rw [this]
  · rw [if_neg hex]
    rw [List.filter_append]
    have hnil : tbl.filter (fun r => r.username == u) = [] := by
      rw [List.filter_eq_nil_iff]
      intro a ha
      exact fun hc => hex (List.any_eq_true.mpr ⟨a, ha, hc⟩)
    rw [hnil]
    simp

/-- C8: starting from a table holding at most one data row for the
username, saving twice leaves exactly one row for that username, holding
the value of the second save. -/
theorem save_user_data_upsert (u : String) (v1 v2 : Bytes) (tbl : List DataRow)
    (h : (tbl.filter (fun r => r.username == u)).length ≤ 1) :
    ((save_user_data u v2 (save_user_data u v1 tbl)).filter
        (fun r => r.username == u)) = [⟨u, v2⟩] := by
  have h1 := save_user_data_one_row u v1 tbl h
  have hlen : ((save_user_data u v1 tbl).filter
      (fun r => r.username == u)).length ≤ 1 := by
    rw [h1]
    simp
  exact save_user_data_one_row u v2 (save_user_data u v1 tbl) hlen

/-- Witness for C8: two saves for one user into an initially empty table
leave exactly the one row with the second value. -/
theorem save_user_data_upsert_witness :
    ((save_user_data (String.mk ['u']) [2]
        (save_user_data (String.mk ['u']) [1] [])).filter
      (fun r => r.username == String.mk ['u'])) = [⟨String.mk ['u'], [2]⟩] :=
  save_user_data_upsert (String.mk ['u']) [1] [2] [] (by decide)

/-! ### Input sanitisation (validation.py lines 130-149) -/

/-- Characters removed by the regular expression of sanitize_input
(validation.py line 144): x00-x08, x0B, x0C, x0E-x1F and x7F. -/
def removedCtl (c : Char) : Bool :=
  decide (c.toNat ≤ 8) || c.toNat == 11 || c.toNat == 12 ||
  (decide (14 ≤ c.toNat) && decide (c.toNat ≤ 31)) || c.toNat == 127

/-- Characters Python's str.strip removes (the code points for which
str.isspace holds). -/
def pyIsSpace (c : Char) : Bool :=
  c.toNat == 9 || c.toNat == 10 || c.toNat == 11 || c.toNat == 12 ||
  c.toNat == 13 || c.toNat == 28 || c.toNat == 29 || c.toNat == 30 ||
  c.toNat == 31 || c.toNat == 32 || c.toNat == 133 || c.toNat == 160 ||
  c.toNat == 5760 || (decide (8192 ≤ c.toNat) && decide (c.toNat ≤ 8202)) ||
  c.toNat == 8232 || c.toNat == 8233 || c.toNat == 8239 ||
  c.toNat == 8287 || c.toNat == 12288

/-- Python str.strip on a character list: drop whitespace from the front,
then from the back. -/
def pyStrip (l : List Char) : List Char :=
  ((l.dropWhile pyIsSpace).reverse.dropWhile pyIsSpace).reverse

/-- Embedding of sanitize_input (validation.py lines 130-149): the empty
string is returned as is; otherwise the control characters are removed and
the result stripped of surrounding whitespace. -/
def sanitize_input (s : String) : String :=
  if s.data = [] then String.mk []
  else String.mk (pyStrip (s.data.filter (fun c => !removedCtl c)))

theorem dropWhile_eq_self_of_head (p : Char → Bool) (l : List Char)
    (h : ∀ c, l.head? = some c → p c = false) : l.dropWhile p = l := by
  cases l with
  | nil => rfl
  | cons a t =>
    rw [List.dropWhile_cons_of_neg]
    simp [h a rfl]

theorem head?_dropWhile_false (p : Char → Bool) (l : List Char) (c : Char)
    (hc : (l.dropWhile p).head? = some c) : p c = false := by
  have := List.head?_dropWhile_not p l
  rw [hc] at this
  exact this

theorem pyStrip_prefixOf (l : List Char) :
    pyStrip l <+: l.dropWhile pyIsSpace := by
  have hsuf : (l.dropWhile pyIsSpace).reverse.dropWhile pyIsSpace
      <:+ (l.dropWhile pyIsSpace).reverse := List.dropWhile_suffix pyIsSpace
  have := List.reverse_prefix.mpr hsuf
  rwa [List.reverse_reverse] at this

theorem pyStrip_head (l : List Char) (c : Char)
    (hc : (pyStrip l).head? = some c) : pyIsSpace c = false := by
  rcases pyStrip_prefixOf l with ⟨t, ht⟩
  have hd : (l.dropWhile pyIsSpace).head? = some c := by
    rw [← ht, List.head?_append, hc]
    rfl
  exact head?_dropWhile_false pyIsSpace l c hd

theorem pyStrip_getLast (l : List Char) (c : Char)
    (hc : (pyStrip l).getLast? = some c) : pyIsSpace c = false := by
  unfold pyStrip at hc
  rw [List.getLast?_reverse] at hc
  exact head?_dropWhile_false pyIsSpace (l.dropWhile pyIsSpace).reverse c hc

theorem pyStrip_idem (l : List Char) : pyStrip (pyStrip l) = pyStrip l := by
  have step1 : (pyStrip l).dropWhile pyIsSpace = pyStrip l :=
    dropWhile_eq_self_of_head pyIsSpace (pyStrip l) (pyStrip_head l)
  have step2 : (pyStrip l).reverse.dropWhile pyIsSpace = (pyStrip l).reverse := by
    apply dropWhile_eq_self_of_head
    intro c hc
    rw [List.head?_reverse] at hc
    exact pyStrip_getLast l c hc
  show ((((pyStrip l).dropWhile pyIsSpace).reverse.dropWhile pyIsSpace)).reverse
      = pyStrip l
  rw [step1, step2, List.reverse_reverse]

theorem pyStrip_subset (l : List Char) : ∀ c ∈ pyStrip l, c ∈ l := by
  intro c hc
  have h1 : c ∈ l.dropWhile pyIsSpace :=
    (pyStrip_prefixOf l).sublist.subset hc
  exact List.dropWhile_subset pyIsSpace h1

/-- C10: sanitize_input is idempotent, its output contains none of the
removed control characters, and its output has no leading and no trailing
whitespace. -/
theorem sanitize_input_props (s : String) :
    sanitize_input (sanitize_input s) = sanitize_input s ∧
    (sanitize_input s).data.all (fun c => !removedCtl c) = true ∧
    (sanitize_input s).data.head?.all (fun c => !pyIsSpace c) = true ∧
    (sanitize_input s).data.getLast?.all (fun c => !pyIsSpace c) = true := by
  by_cases hs : s.data = []
  · have hval : sanitize_input s = String.mk [] := by
      rw [sanitize_input, if_pos hs]
    rw [hval]
    refine ⟨?_, rfl, rfl, rfl⟩
    rw [sanitize_input]
    simp
  · have hval : sanitize_input s
        = String.mk (pyStrip (s.data.filter (fun c => !removedCtl c))) := by
      rw [sanitize_input, if_neg hs]
    have hmem : ∀ c ∈ pyStrip (s.data.filter (fun c => !removedCtl c)),
        (!removedCtl c) = true := by
      intro c hc
      have := pyStrip_subset _ c hc
      exact (List.mem_filter.mp this).2
    rw [hval]
    refine ⟨?_, ?_, ?_, ?_⟩
    · rw [sanitize_input]
      by_cases hnil : pyStrip (s.data.filter (fun c => !removedCtl c)) = []
      · rw [if_pos (by simpa using hnil), hnil]
      · rw [if_neg (by simpa using hnil)]
        show String.mk (pyStrip ((pyStrip
            (s.data.filter (fun c => !removedCtl c))).filter
              (fun c => !removedCtl c))) = _
        rw [List.filter_eq_self.mpr hmem, pyStrip_idem]
    · exact List.all_eq_true.mpr hmem
    · cases hh : (pyStrip (s.data.filter (fun c => !removedCtl c))).head? with
      | none => rfl
      | some c => simp [Option.all, pyStrip_head _ c hh]
    · cases hh : (pyStrip (s.data.filter (fun c => !removedCtl c))).getLast? with
      | none => rfl
      | some c => simp [Option.all, pyStrip_getLast _ c hh]

/-! ### Username validation (validation.py lines 15-49) and the login
endpoint (app.py lines 195-272) -/

/-- Message of validate_username for a missing name (validation.py lines
26, 32). -/
def msgUsernameRequired : String := "El nombre de usuario es requerido"

/-- Message of validate_username for a too-short name (line 36). -/
def msgUsernameShort : String := "El nombre de usuario debe tener al menos 3 caracteres"

/-- Message of validate_username for a too-long name (line 39). -/
def msgUsernameLong : String := "El nombre de usuario no puede tener más de 50 caracteres"

/-- Message of validate_username for bad characters (line 43). -/
def msgUsernameFormat : String := "El nombre de usuario solo puede contener letras, números y guiones bajos"

/-- Message of validate_username for a leading underscore (line 47). -/
def msgUsernameUnderscore : String := "El nombre de usuario debe comenzar con una letra o número"

/-- Character class of the username pattern (validation.py line 42). -/
def isUsernameChar (c : Char) : Bool :=
  (decide ('a' ≤ c) && decide (c ≤ 'z')) ||
  (decide ('A' ≤ c) && decide (c ≤ 'Z')) ||
  (decide ('0' ≤ c) && decide (c ≤ '9')) || c == '_'

/-- Embedding of validate_username (validation.py lines 15-49): emptiness,
strip, length bounds 3..50, the character class, and no leading
underscore; returns the validity flag and the error message. -/
def validate_username (username : String) : Bool × Option String :=
  if username.data = [] then (false, some msgUsernameRequired)
  else
    let u := String.mk (pyStrip username.data)
    if u.data = [] then (false, some msgUsernameRequired)
    else if u.length < 3 then (false, some msgUsernameShort)
    else if 50 < u.length then (false, some msgUsernameLong)
    else if !(u.data.all isUsernameChar) then (false, some msgUsernameFormat)
    else if u.data.head? == some '_' then (false, some msgUsernameUnderscore)
    else (true, none)

/-- HTTP response: status code and the JSON body as key-value pairs. -/
structure HttpResponse where
  status : Nat
  body : List (String × String)
  deriving DecidableEq

/-- JSON key of the error message. -/
def keyError : String := "error"

/-- JSON key of the field hint. -/
def keyField : String := "field"

/-- JSON key of the success flag. -/
def keySuccess : String := "success"

/-- JSON key of the success message. -/
def keyMessage : String := "message"

/-- JSON key of the redirect target. -/
def keyRedirect : String := "redirect"

/-- Field hint value username. -/
def fieldUsername : String := "username"

/-- Field hint value password. -/
def fieldPassword : String := "password"

/-- The JSON boolean True of the success body, rendered as text. -/
def valTrue : String := "true"

/-- Rate-limit message of the login route (app.py line 207). -/
def msgRateLimited : String := "Demasiados intentos de inicio de sesión. Intenta de nuevo en 15 minutos."

/-- CSRF failure message of the login route (app.py line 269). -/
def msgCsrfInvalid : String := "Token de seguridad inválido. Recarga la página."

/-- Empty-password message of the login route (app.py line 229). -/
def msgPasswordRequired : String := "La contraseña es requerida"

/-- Over-long-password message of the login route (app.py line 234). -/
def msgPasswordTooLong : String := "Contraseña demasiado larga"

/-- Credential failure message when the username does not exist (app.py
line 243). -/
def msgBadCredentialsNoUser : String := "Usuario o contraseña incorrectos"

/-- Credential failure message when the password is wrong (app.py line
264). -/
def msgBadCredentialsWrongPassword : String := "Usuario o contraseña incorrectos"

/-- Success message of the login route (app.py line 258). -/
def msgLoginSuccess : String := "Inicio de sesión exitoso"

/-- Redirect target of a successful login (app.py line 259). -/
def pathData : String := "/data"

/-- Embedding of the POST branch of the login route (app.py lines
200-264): rate limiting, CSRF validation, sanitising, username and
password validation, then the credential check. `userHash` is the result
of get_user_password for the sanitised username and `checkPhash` the
password-hash verifier (werkzeug); session handling and logging are not
modelled. Returns the response and the updated attempt dictionary. -/
def login_post (window : Int) (maxAttempts : Nat) (now : Int)
    (m : AttemptMap) (ip : String) (csrfOk : Bool)
    (usernameRaw password : String) (userHash : Option String)
    (checkPhash : String → String → Bool) : HttpResponse × AttemptMap :=
  let rl := is_rate_limited window maxAttempts now m ip
  if rl.1 then
    (⟨429, [(keyError, msgRateLimited), (keyField, fieldUsername)]⟩, rl.2)
  else if !csrfOk then
    (⟨400, [(keyError, msgCsrfInvalid), (keyField, fieldUsername)]⟩, rl.2)
  else
    let username := sanitize_input usernameRaw
    let vu := validate_username username
    if !vu.1 then
      (⟨400, [(keyError, vu.2.getD (String.mk [])), (keyField, fieldUsername)]⟩,
       record_login_attempt now rl.2 ip)
    else if password.data = [] then
      (⟨400, [(keyError, msgPasswordRequired), (keyField, fieldPassword)]⟩,
       record_login_attempt now rl.2 ip)
    else if 128 < password.length then
      (⟨400, [(keyError, msgPasswordTooLong), (keyField, fieldPassword)]⟩,
       record_login_attempt now rl.2 ip)
    else
      match userHash with
      | none =>
        (⟨401, [(keyError, msgBadCredentialsNoUser), (keyField, fieldUsername)]⟩,
         record_login_attempt now rl.2 ip)
      | some h =>
        if checkPhash h password then
          (⟨200, [(keySuccess, valTrue), (keyMessage, msgLoginSuccess),
              (keyRedirect, pathData)]⟩,
           clear_login_attempts rl.2 ip)
        else
          (⟨401, [(keyError, msgBadCredentialsWrongPassword),
              (keyField, fieldUsername)]⟩,
           record_login_attempt now rl.2 ip)

/-- C9: on a non-rate-limited request, the full response (status, body and
attempt bookkeeping) for a non-existent username is identical to the
response for an existing username with a wrong password, so the login
endpoint does not reveal whether a username is registered. -/
theorem login_no_user_enumeration (window : Int) (maxAttempts : Nat)
    (now : Int) (m : AttemptMap) (ip : String)
    (usernameRaw password hash1 : String)
    (checkPhash : String → String → Bool)
    (hrl : (is_rate_limited window maxAttempts now m ip).1 = false)
    (hck : checkPhash hash1 password = false) :
    login_post window maxAttempts now m ip true usernameRaw password
      none checkPhash =
    login_post window maxAttempts now m ip true usernameRaw password
      (some hash1) checkPhash := by
  simp only [login_post, hrl, Bool.false_eq_true, if_false, Bool.not_true, hck,
    msgBadCredentialsNoUser, msgBadCredentialsWrongPassword]

/-- Witness for C9: a concrete request against an empty attempt map, with
a verifier that rejects the password. -/
theorem login_no_user_enumeration_witness :
    login_post 900 5 0 (fun _ => none) (String.mk ['i']) true
      (String.mk ['b', 'o', 'b']) (String.mk ['p']) none
      (fun _ _ => false) =
    login_post 900 5 0 (fun _ => none) (String.mk ['i']) true
      (String.mk ['b', 'o', 'b']) (String.mk ['p'])
      (some (String.mk ['h'])) (fun _ _ => false) :=
  login_no_user_enumeration 900 5 0 (fun _ => none) (String.mk ['i'])
    (String.mk ['b', 'o', 'b']) (String.mk ['p']) (String.mk ['h'])
    (fun _ _ => false) (by decide) rfl

end AppSegura
